import Mathlib

namespace QRGen

/-- The `AddressType` union type `"home" | "work" | "other"` from the source. -/
inductive AddressType
  | home
  | work
  | other
deriving DecidableEq

/-- The `BuildVCardArgs` interface from the source: the contact record fed to
`buildVCard`.  Field order follows the source interface. -/
structure BuildVCardArgs where
  fullName : String
  email : String
  phones : List String
  address : String
  addressType : AddressType
  company : String
  jobTitle : String
  birthday : String
  website : String
  notes : String
deriving DecidableEq

/-- One global single-character replace pass, modelling the JavaScript
`value.replace(/c/g, repl)` for a single character pattern `c`: every
occurrence of `t` is replaced by `r`, and replacements are not rescanned. -/
def replaceChar (t : Char) (r : List Char) : List Char → List Char
  | [] => []
  | c :: cs => (if c = t then r else [c]) ++ replaceChar t r cs

/-- The four chained replaces of the source's `escapeValue`:
backslash to `\\`, newline to `\n`, `;` to `\;`, `,` to `\,`, in that order. -/
def escapeList (l : List Char) : List Char :=
  replaceChar ',' ['\\', ',']
    (replaceChar ';' ['\\', ';']
      (replaceChar '\n' ['\\', 'n']
        (replaceChar '\\' ['\\', '\\'] l)))

/-- The source's `escapeValue`, on `String`. -/
def escapeValue (s : String) : String := ⟨escapeList s.data⟩

/-- Per-character escaping: what `escapeList` does to each input character. -/
def escChar (c : Char) : List Char :=
  if c = '\\' then ['\\', '\\']
  else if c = '\n' then ['\\', 'n']
  else if c = ';' then ['\\', ';']
  else if c = ',' then ['\\', ',']
  else [c]

/-- Character-by-character form of the escaping. -/
def escapeAll : List Char → List Char
  | [] => []
  | c :: cs => escChar c ++ escapeAll cs

/-- A decoder for the vCard escaping: a backslash followed by `n` decodes to a
newline, a backslash followed by any other character decodes to that
character. -/
def unescList : List Char → List Char
  | [] => []
  | [c] => [c]
  | c :: d :: cs =>
    if c = '\\' then (if d = 'n' then '\n' else d) :: unescList cs
    else c :: unescList (d :: cs)

/-- The decoder on `String`. -/
def unescapeValue (s : String) : String := ⟨unescList s.data⟩

/-- The separator class of the source's split regex `[\n,;]`. -/
def isSep (c : Char) : Bool := c = '\n' || c = ',' || c = ';'

/-- The split `value.split(/[\n,;]+/)`: split on maximal runs of separator characters.
A leading run yields a leading empty token and a trailing run a trailing
empty token, as with the JavaScript regex split; interior runs are collapsed
to a single boundary. -/
def splitRuns : List Char → List (List Char)
  | [] => [[]]
  | [c] => if isSep c then [[], []] else [[c]]
  | c :: d :: cs =>
    if isSep c then
      if isSep d then splitRuns (d :: cs)
      else [] :: splitRuns (d :: cs)
    else
      match splitRuns (d :: cs) with
      | [] => [[c]]
      | t :: ts => (c :: t) :: ts

/-- The JavaScript `String.prototype.trim`: drop whitespace from both ends. -/
def trimList (l : List Char) : List Char :=
  ((l.dropWhile Char.isWhitespace).reverse.dropWhile Char.isWhitespace).reverse

/-- The source's `parsePhoneNumbers`: split the free-text phone input on
runs of newlines, commas or semicolons, trim each entry, and drop the empty
entries (`.filter(Boolean)`). -/
def parsePhoneNumbers (s : String) : List String :=
  ((((splitRuns s.data).map trimList).filter (fun t => !t.isEmpty)).map
    (fun t => (⟨t⟩ : String)))

/-- The JavaScript `Array.prototype.join` with separator `"\n"` on the list of vCard lines. -/
def joinLines : List String → String
  | [] => ""
  | [s] => s
  | s :: rest => s ++ "\n" ++ joinLines rest

/-- The `;TYPE=…` parameter of the ADR line: the source's local variable,
`addressType === "other" ? "" : ";TYPE=" + addressType.toUpperCase()`. -/
def adrTypeSeg : AddressType → String
  | .home => ";TYPE=HOME"
  | .work => ";TYPE=WORK"
  | .other => ""

/-- The property lines pushed by `buildVCard` between the `VERSION:3.0` line
and the `END:VCARD` line, in source order.  A JavaScript `if (field)` guard
on a string is an emptiness test, and the phone loop pushes one
`TEL;TYPE=CELL` line per entry.  Note the source does not escape the
birthday. -/
def bodyLines (r : BuildVCardArgs) : List String :=
  (if r.fullName = "" then [] else ["FN:" ++ escapeValue r.fullName])
    ++ (if r.company = "" then [] else ["ORG:" ++ escapeValue r.company])
    ++ (if r.jobTitle = "" then [] else ["TITLE:" ++ escapeValue r.jobTitle])
    ++ r.phones.map (fun n => "TEL;TYPE=CELL:" ++ escapeValue n)
    ++ (if r.email = "" then [] else ["EMAIL;TYPE=INTERNET:" ++ escapeValue r.email])
    ++ (if r.address = "" then []
        else ["ADR" ++ adrTypeSeg r.addressType ++ ":;;" ++ escapeValue r.address ++ ";;;;"])
    ++ (if r.birthday = "" then [] else ["BDAY:" ++ r.birthday])
    ++ (if r.website = "" then [] else ["URL:" ++ escapeValue r.website])
    ++ (if r.notes = "" then [] else ["NOTE:" ++ escapeValue r.notes])

/-- The source's `buildVCard`: start from `BEGIN:VCARD` / `VERSION:3.0`,
push the property lines, return `""` when nothing was pushed
(`lines.length === 2`), otherwise push `END:VCARD` and join with newlines. -/
def buildVCard (r : BuildVCardArgs) : String :=
  let lines := ["BEGIN:VCARD", "VERSION:3.0"] ++ bodyLines r
  if lines.length = 2 then "" else joinLines (lines ++ ["END:VCARD"])

/-- The record with every string field empty and no phone numbers (the
initial UI state; the address type select starts at `"home"`). -/
def emptyRecord : BuildVCardArgs :=
  ⟨"", "", [], "", .home, "", "", "", "", ""⟩

/-- The source's `hasContactInfo`: `Boolean(vCard)`, i.e. the built vCard
is a non-empty string. -/
def hasContactInfo (r : BuildVCardArgs) : Bool := !(buildVCard r).isEmpty

/-- Trim on `String`. -/
def trimStr (s : String) : String := ⟨trimList s.data⟩

/-- The older page variant's `generateQR`: if all four fields are empty
(falsy), alert and return without producing a QR value (`none`); otherwise
the QR value is the fixed template, passed through the identity replace
`.replace(/\n/g, "\n")` and trimmed.  (`name || ""` is just `name` for
strings.) -/
def generateQR (name phone address birthday : String) : Option String :=
  if name = "" ∧ phone = "" ∧ address = "" ∧ birthday = "" then none
  else some (trimStr
    ⟨replaceChar '\n' ['\n']
      ("BEGIN:VCARD\nVERSION:3.0\nFN:" ++ name ++ "\nTEL:" ++ phone
        ++ "\nADR:;;" ++ address ++ ";;;;\nBDAY:" ++ birthday ++ "\nEND:VCARD").data⟩)

/-- Every string field is empty and the phone list is empty. -/
def allEmpty (r : BuildVCardArgs) : Prop :=
  r.fullName = "" ∧ r.email = "" ∧ r.phones = [] ∧ r.address = ""
    ∧ r.company = "" ∧ r.jobTitle = "" ∧ r.birthday = "" ∧ r.website = ""
    ∧ r.notes = ""

instance (r : BuildVCardArgs) : Decidable (allEmpty r) := by
  unfold allEmpty
  infer_instance

/-- Splitting a character list on newline characters. -/
def splitNl : List Char → List (List Char)
  | [] => [[]]
  | c :: cs =>
    if c = '\n' then [] :: splitNl cs
    else
      match splitNl cs with
      | [] => [[c]]
      | t :: ts => (c :: t) :: ts

/-- The lines of a string, splitting on `'\n'`. -/
def linesOf (s : String) : List String := (splitNl s.data).map (fun l => (⟨l⟩ : String))

/-- A string with no newline character. -/
def nlFree (s : String) : Prop := ∀ c ∈ s.data, c ≠ '\n'

instance (s : String) : Decidable (nlFree s) := by
  unfold nlFree
  infer_instance

/-- The record whose only content is the parsed phone input: all other
fields as in the initial UI state. -/
def phonesOnly (s : String) : BuildVCardArgs :=
  { emptyRecord with phones := parsePhoneNumbers s }

/-- The number of non-empty scalar string fields of a record (each
contributes one property line in `buildVCard`). -/
def scalarCount (r : BuildVCardArgs) : Nat :=
  (if r.fullName = "" then 0 else 1) + (if r.company = "" then 0 else 1)
    + (if r.jobTitle = "" then 0 else 1) + (if r.email = "" then 0 else 1)
    + (if r.address = "" then 0 else 1) + (if r.birthday = "" then 0 else 1)
    + (if r.website = "" then 0 else 1) + (if r.notes = "" then 0 else 1)

/-- The number of non-empty fields of a record, counting the whole phone
list as a single field. -/
def fieldCount (r : BuildVCardArgs) : Nat :=
  scalarCount r + (if r.phones = [] then 0 else 1)

/-- String `p` occurs at the very start of `s`. -/
def startsWithP (p s : String) : Bool := p.data.isPrefixOf s.data

/-- The number of lines of `s` that start with `p`. -/
def countLinesWith (p s : String) : Nat :=
  ((linesOf s).filter (fun l => startsWithP p l)).length

/-- The property lines as the spec describes them (refinement reference):
identical to `bodyLines` except that the birthday is also escaped before
insertion, following the spec sentence that special characters in every
field are escaped per vCard rules before insertion. -/
def bodyLinesSpec (r : BuildVCardArgs) : List String :=
  (if r.fullName = "" then [] else ["FN:" ++ escapeValue r.fullName])
    ++ (if r.company = "" then [] else ["ORG:" ++ escapeValue r.company])
    ++ (if r.jobTitle = "" then [] else ["TITLE:" ++ escapeValue r.jobTitle])
    ++ r.phones.map (fun n => "TEL;TYPE=CELL:" ++ escapeValue n)
    ++ (if r.email = "" then [] else ["EMAIL;TYPE=INTERNET:" ++ escapeValue r.email])
    ++ (if r.address = "" then []
        else ["ADR" ++ adrTypeSeg r.addressType ++ ":;;" ++ escapeValue r.address ++ ";;;;"])
    ++ (if r.birthday = "" then [] else ["BDAY:" ++ escapeValue r.birthday])
    ++ (if r.website = "" then [] else ["URL:" ++ escapeValue r.website])
    ++ (if r.notes = "" then [] else ["NOTE:" ++ escapeValue r.notes])

/-- The builder as the spec describes it: `buildVCard` with every field,
including the birthday, escaped. -/
def buildVCardSpec (r : BuildVCardArgs) : String :=
  let lines := ["BEGIN:VCARD", "VERSION:3.0"] ++ bodyLinesSpec r
  if lines.length = 2 then "" else joinLines (lines ++ ["END:VCARD"])

/-- A record whose birthday contains a semicolon: the source inserts it
unescaped. -/
def rBadC1 : BuildVCardArgs := { emptyRecord with birthday := ";" }

/-- A record with an ordinary date-picker birthday. -/
def rWitC1 : BuildVCardArgs := { emptyRecord with birthday := "1990-01-01" }

/-- A record whose only non-empty field is a phone list with two entries. -/
def rBadC2 : BuildVCardArgs := { emptyRecord with phones := ["555", "777"] }

/-- A record whose only non-empty field is the full name. -/
def rAda : BuildVCardArgs := { emptyRecord with fullName := "Ada" }

/-- A record whose only non-empty field is the email address. -/
def rWit7 : BuildVCardArgs := { emptyRecord with email := "ada@example.com" }

/-- One line per non-empty field under the standard vCard property names,
counted by line prefix in the built output, and the total line count:
framing (3 lines) plus one line per non-empty field, each phone entry
counting as one field. -/
def vcardLineProp (r : BuildVCardArgs) : Prop :=
  countLinesWith "FN:" (buildVCard r) = (if r.fullName = "" then 0 else 1)
    ∧ countLinesWith "ORG:" (buildVCard r) = (if r.company = "" then 0 else 1)
    ∧ countLinesWith "TITLE:" (buildVCard r) = (if r.jobTitle = "" then 0 else 1)
    ∧ countLinesWith "TEL;TYPE=CELL:" (buildVCard r)
        = (r.phones.filter (fun p => !p.isEmpty)).length
    ∧ countLinesWith "EMAIL;TYPE=INTERNET:" (buildVCard r) = (if r.email = "" then 0 else 1)
    ∧ countLinesWith "ADR" (buildVCard r) = (if r.address = "" then 0 else 1)
    ∧ countLinesWith "BDAY:" (buildVCard r) = (if r.birthday = "" then 0 else 1)
    ∧ countLinesWith "URL:" (buildVCard r) = (if r.website = "" then 0 else 1)
    ∧ countLinesWith "NOTE:" (buildVCard r) = (if r.notes = "" then 0 else 1)
    ∧ (linesOf (buildVCard r)).length
        = 3 + scalarCount r + (r.phones.filter (fun p => !p.isEmpty)).length

instance (r : BuildVCardArgs) : Decidable (vcardLineProp r) := by
  unfold vcardLineProp
  infer_instance

/-- A record whose phone list holds an empty entry and whose birthday holds
a raw newline. -/
def rBadC4 : BuildVCardArgs := { emptyRecord with phones := [""], birthday := "a\nb" }

/-- A well-formed record: non-empty phone entry, date-picker birthday. -/
def rWitC4 : BuildVCardArgs :=
  { emptyRecord with fullName := "Ada", phones := ["123"], birthday := "1990-01-01" }

theorem replaceChar_append (t : Char) (r : List Char) (a b : List Char) :
    replaceChar t r (a ++ b) = replaceChar t r a ++ replaceChar t r b := by
  induction a with
  | nil => simp [replaceChar]
  | cons c cs ih => simp [replaceChar, ih]

theorem escapeList_append (a b : List Char) :
    escapeList (a ++ b) = escapeList a ++ escapeList b := by
  simp [escapeList, replaceChar_append]

theorem escapeList_single (c : Char) : escapeList [c] = escChar c := by
  by_cases h1 : c = '\\'
  · subst h1; decide
  · by_cases h2 : c = '\n'
    · subst h2; decide
    · by_cases h3 : c = ';'
      · subst h3; decide
      · by_cases h4 : c = ','
        · subst h4; decide
        · simp [escapeList, replaceChar, escChar, h1, h2, h3, h4]

theorem escapeList_eq_escapeAll (l : List Char) : escapeList l = escapeAll l := by
  induction l with
  | nil => rfl
  | cons c cs ih =>
    have hsplit : c :: cs = [c] ++ cs := rfl
    rw [hsplit, escapeList_append, escapeList_single, ih]
    rfl

theorem unescList_escapeAll (l : List Char) : unescList (escapeAll l) = l := by
  induction l with
  | nil => rfl
  | cons c cs ih =>
    show unescList (escChar c ++ escapeAll cs) = c :: cs
    by_cases h1 : c = '\\'
    · subst h1
      simp [escChar, unescList, ih]
    · by_cases h2 : c = '\n'
      · subst h2
        simp [escChar, unescList, ih]
      · by_cases h3 : c = ';'
        · subst h3
          simp [escChar, unescList, ih]
        · by_cases h4 : c = ','
          · subst h4
            simp [escChar, unescList, ih]
          · have hone : escChar c = [c] := by simp [escChar, h1, h2, h3, h4]
            rw [hone]
            cases hrest : escapeAll cs with
            | nil =>
              rw [hrest] at ih
              simp [unescList] at ih
              simp [unescList, ih]
            | cons d ds =>
              rw [hrest] at ih
              simp [unescList, h1, ih]

theorem unescList_escapeList (l : List Char) : unescList (escapeList l) = l := by
  rw [escapeList_eq_escapeAll, unescList_escapeAll]

/-- Round trip of the escaping on `String`. -/
theorem unescape_escape (s : String) : unescapeValue (escapeValue s) = s := by
  show String.mk (unescList (escapeList s.data)) = s
  rw [unescList_escapeList]

theorem ite_nil_eq_nil (c : Prop) [Decidable c] (x : String) :
    ((if c then ([] : List String) else [x]) = []) ↔ c := by
  split <;> simp [*]

theorem bodyLines_eq_nil_iff (r : BuildVCardArgs) :
    bodyLines r = [] ↔ allEmpty r := by
  simp only [bodyLines, allEmpty, List.append_eq_nil, ite_nil_eq_nil,
    List.map_eq_nil_iff]
  tauto

theorem buildVCard_eq_join (r : BuildVCardArgs) (h : bodyLines r ≠ []) :
    buildVCard r
      = joinLines (["BEGIN:VCARD", "VERSION:3.0"] ++ bodyLines r ++ ["END:VCARD"]) := by
  have hlen : (["BEGIN:VCARD", "VERSION:3.0"] ++ bodyLines r).length ≠ 2 := by
    simp only [List.length_append, List.length_cons, List.length_nil]
    intro hc
    have hz : (bodyLines r).length = 0 := by omega
    exact h (List.length_eq_zero.mp hz)
  show (if _ then _ else _) = _
  rw [if_neg hlen]

theorem data_append (a b : String) : (a ++ b).data = a.data ++ b.data :=
  String.data_append a b

theorem append_ne_empty_left (a b : String) (h : a.data ≠ []) : a ++ b ≠ "" := by
  intro hc
  have hd := congrArg String.data hc
  rw [data_append] at hd
  have : a.data = [] := (List.append_eq_nil.mp hd).1
  exact h this

theorem buildVCard_eq_empty_iff (r : BuildVCardArgs) :
    buildVCard r = "" ↔ allEmpty r := by
  constructor
  · intro h
    by_contra hne
    have hb : bodyLines r ≠ [] := fun hnil => hne ((bodyLines_eq_nil_iff r).mp hnil)
    rw [buildVCard_eq_join r hb] at h
    revert h
    show joinLines ("BEGIN:VCARD" :: "VERSION:3.0" :: (bodyLines r ++ ["END:VCARD"])) ≠ ""
    cases hbody : bodyLines r ++ ["END:VCARD"] with
    | nil => simp at hbody
    | cons x xs =>
      show "BEGIN:VCARD" ++ "\n" ++ joinLines ("VERSION:3.0" :: x :: xs) ≠ ""
      exact append_ne_empty_left _ _ (by decide)
  · intro h
    have hb : bodyLines r = [] := (bodyLines_eq_nil_iff r).mpr h
    simp [buildVCard, hb]

theorem splitNl_no_nl (l : List Char) (h : ∀ c ∈ l, c ≠ '\n') : splitNl l = [l] := by
  induction l with
  | nil => rfl
  | cons c cs ih =>
    have hc : c ≠ '\n' := h c (by simp)
    have ihh := ih (fun d hd => h d (by simp [hd]))
    simp [splitNl, hc, ihh]

theorem splitNl_append_nl (a rest : List Char) (h : ∀ c ∈ a, c ≠ '\n') :
    splitNl (a ++ '\n' :: rest) = a :: splitNl rest := by
  induction a with
  | nil => simp [splitNl]
  | cons c cs ih =>
    have hc : c ≠ '\n' := h c (by simp)
    have ihh := ih (fun d hd => h d (by simp [hd]))
    simp [splitNl, hc, ihh]

theorem linesOf_joinLines (ls : List String) (hne : ls ≠ [])
    (hnl : ∀ l ∈ ls, nlFree l) : linesOf (joinLines ls) = ls := by
  induction ls with
  | nil => exact absurd rfl hne
  | cons s rest ih =>
    cases rest with
    | nil =>
      show linesOf s = [s]
      unfold linesOf
      rw [splitNl_no_nl s.data (hnl s (by simp))]
      rfl
    | cons b t =>
      have hstep : joinLines (s :: b :: t) = s ++ "\n" ++ joinLines (b :: t) := rfl
      have hdata : (s ++ "\n" ++ joinLines (b :: t)).data
          = s.data ++ '\n' :: (joinLines (b :: t)).data := by
        rw [data_append, data_append]
        show s.data ++ ['\n'] ++ (joinLines (b :: t)).data = _
        simp
      unfold linesOf
      rw [hstep, hdata, splitNl_append_nl s.data _ (hnl s (by simp))]
      have ihh := ih (by simp) (fun l hl => hnl l (by simp [hl]))
      unfold linesOf at ihh
      simp only [List.map_cons, ihh]

theorem nlFree_append (s t : String) (hs : nlFree s) (ht : nlFree t) :
    nlFree (s ++ t) := by
  intro c hc
  rw [data_append] at hc
  rcases List.mem_append.mp hc with h | h
  · exact hs c h
  · exact ht c h

theorem mem_escChar_ne_nl (c d : Char) (h : d ∈ escChar c) : d ≠ '\n' := by
  by_cases h1 : c = '\\'
  · subst h1
    have he : escChar '\\' = ['\\', '\\'] := by decide
    rw [he] at h
    simp at h
    subst h
    decide
  · by_cases h2 : c = '\n'
    · subst h2
      have he : escChar '\n' = ['\\', 'n'] := by decide
      rw [he] at h
      simp at h
      rcases h with rfl | rfl <;> decide
    · by_cases h3 : c = ';'
      · subst h3
        have he : escChar ';' = ['\\', ';'] := by decide
        rw [he] at h
        simp at h
        rcases h with rfl | rfl <;> decide
      · by_cases h4 : c = ','
        · subst h4
          have he : escChar ',' = ['\\', ','] := by decide
          rw [he] at h
          simp at h
          rcases h with rfl | rfl <;> decide
        · have he : escChar c = [c] := by simp [escChar, h1, h2, h3, h4]
          rw [he] at h
          simp at h
          subst h
          exact h2

theorem nlFree_escapeValue (s : String) : nlFree (escapeValue s) := by
  show ∀ c ∈ escapeList s.data, c ≠ '\n'
  rw [escapeList_eq_escapeAll]
  generalize s.data = l
  induction l with
  | nil => simp [escapeAll]
  | cons c cs ih =>
    intro d hd
    rcases List.mem_append.mp hd with h | h
    · exact mem_escChar_ne_nl c d h
    · exact ih d h

theorem mem_ite_nil_single (c : Prop) [Decidable c] (x l : String) :
    (l ∈ (if c then ([] : List String) else [x])) ↔ ¬c ∧ l = x := by
  split <;> simp [*]

theorem nlFree_lit_esc (p : String) (hp : nlFree p) (s : String) :
    nlFree (p ++ escapeValue s) :=
  nlFree_append _ _ hp (nlFree_escapeValue s)

theorem nlFree_adrTypeSeg (t : AddressType) : nlFree (adrTypeSeg t) := by
  cases t <;> decide

theorem bodyLines_nlFree (r : BuildVCardArgs) (hb : nlFree r.birthday) :
    ∀ l ∈ bodyLines r, nlFree l := by
  intro l hl
  simp only [bodyLines, List.mem_append, mem_ite_nil_single, List.mem_map] at hl
  rcases hl with (((((((⟨-, rfl⟩ | ⟨-, rfl⟩) | ⟨-, rfl⟩) | ⟨n, -, rfl⟩) | ⟨-, rfl⟩)
    | ⟨-, rfl⟩) | ⟨-, rfl⟩) | ⟨-, rfl⟩) | ⟨-, rfl⟩
  · exact nlFree_lit_esc "FN:" (by decide) _
  · exact nlFree_lit_esc "ORG:" (by decide) _
  · exact nlFree_lit_esc "TITLE:" (by decide) _
  · exact nlFree_lit_esc "TEL;TYPE=CELL:" (by decide) _
  · exact nlFree_lit_esc "EMAIL;TYPE=INTERNET:" (by decide) _
  · exact nlFree_append _ _
      (nlFree_append _ _
        (nlFree_append _ _ (nlFree_append _ _ (by decide) (nlFree_adrTypeSeg _))
          (by decide))
        (nlFree_escapeValue _))
      (by decide)
  · exact nlFree_append _ _ (by decide) hb
  · exact nlFree_lit_esc "URL:" (by decide) _
  · exact nlFree_lit_esc "NOTE:" (by decide) _

theorem linesOf_buildVCard (r : BuildVCardArgs) (hne : ¬ allEmpty r)
    (hb : nlFree r.birthday) :
    linesOf (buildVCard r)
      = ["BEGIN:VCARD", "VERSION:3.0"] ++ bodyLines r ++ ["END:VCARD"] := by
  have hbody : bodyLines r ≠ [] := fun h => hne ((bodyLines_eq_nil_iff r).mp h)
  rw [buildVCard_eq_join r hbody]
  apply linesOf_joinLines
  · simp
  · intro l hl
    simp only [List.append_assoc, List.cons_append, List.nil_append,
      List.mem_cons, List.mem_append, List.mem_singleton] at hl
    rcases hl with rfl | rfl | hl | rfl | h
    · decide
    · decide
    · exact bodyLines_nlFree r hb l hl
    · decide
    · simp at h

theorem joinLines_append_last (ls : List String) (x : String) (h : ls ≠ []) :
    joinLines (ls ++ [x]) = joinLines ls ++ "\n" ++ x := by
  induction ls with
  | nil => exact absurd rfl h
  | cons s rest ih =>
    cases rest with
    | nil => rfl
    | cons b t =>
      have ihh := ih (by simp)
      show s ++ "\n" ++ joinLines ((b :: t) ++ [x]) = (s ++ "\n" ++ joinLines (b :: t)) ++ "\n" ++ x
      rw [ihh]
      simp [String.append_assoc]

theorem buildVCard_string_form (r : BuildVCardArgs) (hne : ¬ allEmpty r) :
    buildVCard r
      = "BEGIN:VCARD\nVERSION:3.0\n" ++ joinLines (bodyLines r) ++ "\nEND:VCARD" := by
  have hbody : bodyLines r ≠ [] := fun h => hne ((bodyLines_eq_nil_iff r).mp h)
  rw [buildVCard_eq_join r hbody]
  cases hcase : bodyLines r with
  | nil => exact absurd hcase hbody
  | cons y ys =>
    show joinLines ("BEGIN:VCARD" :: "VERSION:3.0" :: ((y :: ys) ++ ["END:VCARD"])) = _
    have h1 : joinLines ("BEGIN:VCARD" :: "VERSION:3.0" :: ((y :: ys) ++ ["END:VCARD"]))
        = "BEGIN:VCARD" ++ "\n" ++ ("VERSION:3.0" ++ "\n" ++ joinLines ((y :: ys) ++ ["END:VCARD"])) := rfl
    rw [h1, joinLines_append_last (y :: ys) "END:VCARD" (by simp)]
    rw [show ("BEGIN:VCARD\nVERSION:3.0\n" : String)
        = "BEGIN:VCARD" ++ "\n" ++ "VERSION:3.0" ++ "\n" from rfl]
    rw [show ("\nEND:VCARD" : String) = "\n" ++ "END:VCARD" from rfl]
    simp [String.append_assoc]
    rw [← String.append_assoc]
    simp

theorem getLast?_cons_ne_nil (a : Char) (as : List Char) (h : as ≠ []) :
    (a :: as).getLast? = as.getLast? := by
  cases as with
  | nil => exact absurd rfl h
  | cons b bs => simp [List.getLast?_cons_cons]

theorem dropWhile_head_false (p : Char → Bool) (l : List Char) :
    ∀ c, (l.dropWhile p).head? = some c → p c = false := by
  induction l with
  | nil => simp
  | cons a as ih =>
    intro c hc
    rw [List.dropWhile_cons] at hc
    by_cases hpa : p a
    · exact ih c (by rwa [if_pos hpa] at hc)
    · rw [if_neg hpa] at hc
      simp at hc
      subst hc
      simp [hpa]

theorem getLast?_dropWhile_ne (p : Char → Bool) (l : List Char)
    (h : l.dropWhile p ≠ []) : (l.dropWhile p).getLast? = l.getLast? := by
  induction l with
  | nil => exact absurd rfl h
  | cons a as ih =>
    rw [List.dropWhile_cons]
    by_cases hpa : p a
    · rw [if_pos hpa]
      rw [List.dropWhile_cons, if_pos hpa] at h
      have has : as ≠ [] := by
        intro hnil
        rw [hnil] at h
        exact h rfl
      rw [ih h, getLast?_cons_ne_nil a as has]
    · rw [if_neg hpa]

theorem mem_dropWhile (p : Char → Bool) (l : List Char) (c : Char)
    (h : c ∈ l.dropWhile p) : c ∈ l :=
  (List.dropWhile_sublist (l := l) p).mem h

theorem mem_trimList (l : List Char) (c : Char) (h : c ∈ trimList l) : c ∈ l := by
  unfold trimList at h
  rw [List.mem_reverse] at h
  have h2 := mem_dropWhile _ _ _ h
  rw [List.mem_reverse] at h2
  exact mem_dropWhile _ _ _ h2

theorem trimList_head (l : List Char) :
    ∀ c, (trimList l).head? = some c → c.isWhitespace = false := by
  intro c hc
  unfold trimList at hc
  rw [List.head?_reverse] at hc
  have hne : (l.dropWhile Char.isWhitespace).reverse.dropWhile Char.isWhitespace ≠ [] := by
    intro hnil
    rw [hnil] at hc
    simp at hc
  rw [getLast?_dropWhile_ne _ _ hne, List.getLast?_reverse] at hc
  exact dropWhile_head_false _ _ c hc

theorem trimList_last (l : List Char) :
    ∀ c, (trimList l).getLast? = some c → c.isWhitespace = false := by
  intro c hc
  unfold trimList at hc
  rw [List.getLast?_reverse] at hc
  exact dropWhile_head_false _ _ c hc

theorem trimList_all_ws (l : List Char) (h : ∀ c ∈ l, c.isWhitespace = true) :
    trimList l = [] := by
  unfold trimList
  rw [List.dropWhile_eq_nil_iff.mpr h]
  rfl

theorem splitRuns_tokens : ∀ (l : List Char), ∀ t ∈ splitRuns l, ∀ c ∈ t,
    isSep c = false ∧ c ∈ l := by
  intro l
  induction l with
  | nil =>
    intro t ht c hc
    simp [splitRuns] at ht
    subst ht
    simp at hc
  | cons a as ih =>
    cases as with
    | nil =>
      intro t ht c hc
      by_cases ha : isSep a
      · simp [splitRuns, ha] at ht
        subst ht
        simp at hc
      · simp only [splitRuns, Bool.not_eq_true] at ht
        rw [if_neg (by simp [ha])] at ht
        simp at ht
        subst ht
        simp at hc
        subst hc
        simp [ha]
    | cons d ds =>
      intro t ht c hc
      by_cases ha : isSep a
      · by_cases hd : isSep d
        · rw [show splitRuns (a :: d :: ds) = splitRuns (d :: ds) by
            simp [splitRuns, ha, hd]] at ht
          have := ih t ht c hc
          exact ⟨this.1, by simp [this.2]⟩
        · rw [show splitRuns (a :: d :: ds) = [] :: splitRuns (d :: ds) by
            simp [splitRuns, ha, hd]] at ht
          rcases List.mem_cons.mp ht with rfl | ht
          · simp at hc
          · have := ih t ht c hc
            exact ⟨this.1, by simp [this.2]⟩
      · cases hsp : splitRuns (d :: ds) with
        | nil =>
          rw [show splitRuns (a :: d :: ds) = [[a]] by
            simp [splitRuns, ha, hsp]] at ht
          simp at ht
          subst ht
          simp at hc
          subst hc
          simp [ha]
        | cons t0 ts =>
          rw [show splitRuns (a :: d :: ds) = (a :: t0) :: ts by
            simp [splitRuns, ha, hsp]] at ht
          rcases List.mem_cons.mp ht with rfl | ht
          · rcases List.mem_cons.mp hc with rfl | hc
            · simp [ha]
            · have := ih t0 (by rw [hsp]; simp) c hc
              exact ⟨this.1, by simp [this.2]⟩
          · have := ih t (by rw [hsp]; simp [ht]) c hc
            exact ⟨this.1, by simp [this.2]⟩

theorem mem_parsePhoneNumbers (s : String) (p : String) (h : p ∈ parsePhoneNumbers s) :
    ∃ t, t ∈ splitRuns s.data ∧ p.data = trimList t ∧ trimList t ≠ [] := by
  unfold parsePhoneNumbers at h
  simp only [List.mem_map, List.mem_filter] at h
  obtain ⟨t', ⟨ht', hne⟩, rfl⟩ := h
  obtain ⟨t, ht, rfl⟩ := ht'
  refine ⟨t, ht, rfl, ?_⟩
  intro hnil
  rw [hnil] at hne
  simp at hne

theorem parsePhoneNumbers_sep_ws (s : String)
    (h : ∀ c ∈ s.data, isSep c = true ∨ c.isWhitespace = true) :
    parsePhoneNumbers s = [] := by
  unfold parsePhoneNumbers
  rw [List.map_eq_nil_iff, List.filter_eq_nil_iff]
  intro t' ht'
  simp only [List.mem_map] at ht'
  obtain ⟨t, ht, rfl⟩ := ht'
  have htrim : trimList t = [] := by
    apply trimList_all_ws
    intro c hc
    have h2 := splitRuns_tokens s.data t ht c hc
    rcases h c h2.2 with hs | hw
    · rw [h2.1] at hs
      exact absurd hs (by simp)
    · exact hw
  rw [htrim]
  simp

theorem bodyLines_length (r : BuildVCardArgs) :
    (bodyLines r).length = scalarCount r + r.phones.length := by
  simp only [bodyLines, scalarCount, List.length_append, List.length_map,
    apply_ite List.length, List.length_nil, List.length_singleton]
  ring

theorem isPrefixOf_append_of_isPrefixOf (p q l : List Char)
    (h : p.isPrefixOf q = true) : p.isPrefixOf (q ++ l) = true := by
  rw [List.isPrefixOf_iff_prefix] at h ⊢
  exact h.trans (List.prefix_append q l)

theorem isPrefixOf_append_false (p q l : List Char)
    (hpq : p.isPrefixOf q = false) (hqp : q.isPrefixOf p = false) :
    p.isPrefixOf (q ++ l) = false := by
  cases hb : p.isPrefixOf (q ++ l) with
  | false => rfl
  | true =>
    exfalso
    rw [List.isPrefixOf_iff_prefix] at hb
    rcases List.prefix_or_prefix_of_prefix hb (List.prefix_append q l) with h | h
    · have h2 := List.isPrefixOf_iff_prefix.mpr h
      rw [h2] at hpq
      exact absurd hpq (by simp)
    · have h2 := List.isPrefixOf_iff_prefix.mpr h
      rw [h2] at hqp
      exact absurd hqp (by simp)

theorem startsWithP_append_true (p q x : String)
    (h : p.data.isPrefixOf q.data = true) : startsWithP p (q ++ x) = true := by
  unfold startsWithP
  rw [data_append]
  exact isPrefixOf_append_of_isPrefixOf _ _ _ h

theorem startsWithP_append_false (p q x : String)
    (hpq : p.data.isPrefixOf q.data = false) (hqp : q.data.isPrefixOf p.data = false) :
    startsWithP p (q ++ x) = false := by
  unfold startsWithP
  rw [data_append]
  exact isPrefixOf_append_false _ _ _ hpq hqp

theorem filter_ite_single (q : String → Bool) (c : Prop) [Decidable c] (x : String) :
    (if c then ([] : List String) else [x]).filter q
      = if c then [] else (if q x then [x] else []) := by
  split
  · simp
  · simp [List.filter_cons]

theorem filter_map_none (f : String → String) (q : String → Bool) (l : List String)
    (h : ∀ x, q (f x) = false) : (l.map f).filter q = [] := by
  induction l with
  | nil => simp
  | cons a as ih => simp [List.filter_cons, h, ih]

theorem filter_map_all (f : String → String) (q : String → Bool) (l : List String)
    (h : ∀ x, q (f x) = true) : (l.map f).filter q = l.map f := by
  induction l with
  | nil => simp
  | cons a as ih => simp [List.filter_cons, h, ih]

theorem length_filter_ite (q : String → Bool) (c : Prop) [Decidable c]
    (x : String) (b : Bool) (hq : q x = b) :
    ((if c then ([] : List String) else [x]).filter q).length
      = if c then 0 else (if b = true then 1 else 0) := by
  subst hq
  rw [filter_ite_single]
  by_cases hc : c
  · simp [hc]
  · cases hqx : q x <;> simp [hc, hqx]

theorem length_filter_map (f : String → String) (q : String → Bool)
    (l : List String) (b : Bool) (h : ∀ x, q (f x) = b) :
    ((l.map f).filter q).length = if b = true then l.length else 0 := by
  cases b
  · rw [filter_map_none f q l h]
    simp
  · rw [filter_map_all f q l h]
    simp

theorem startsWithP_adr (P : String) (t : AddressType) (x : String) (b : Bool)
    (h : ∀ y : String, startsWithP P ("ADR" ++ y) = b) :
    startsWithP P ("ADR" ++ adrTypeSeg t ++ ":;;" ++ escapeValue x ++ ";;;;") = b := by
  have assoc : "ADR" ++ adrTypeSeg t ++ ":;;" ++ escapeValue x ++ ";;;;"
      = "ADR" ++ (adrTypeSeg t ++ (":;;" ++ (escapeValue x ++ ";;;;"))) := by
    simp [String.append_assoc]
  rw [assoc]
  exact h _

theorem countLines_body (r : BuildVCardArgs) (hne : ¬ allEmpty r)
    (hb : nlFree r.birthday) (P : String)
    {bFN bORG bTITLE bTEL bEMAIL bADR bBDAY bURL bNOTE : Bool}
    (hBV : startsWithP P "BEGIN:VCARD" = false)
    (hV : startsWithP P "VERSION:3.0" = false)
    (hE : startsWithP P "END:VCARD" = false)
    (hFN : ∀ x, startsWithP P ("FN:" ++ escapeValue x) = bFN)
    (hORG : ∀ x, startsWithP P ("ORG:" ++ escapeValue x) = bORG)
    (hTITLE : ∀ x, startsWithP P ("TITLE:" ++ escapeValue x) = bTITLE)
    (hTEL : ∀ x, startsWithP P ("TEL;TYPE=CELL:" ++ escapeValue x) = bTEL)
    (hEMAIL : ∀ x, startsWithP P ("EMAIL;TYPE=INTERNET:" ++ escapeValue x) = bEMAIL)
    (hADR : ∀ t x, startsWithP P ("ADR" ++ adrTypeSeg t ++ ":;;" ++ escapeValue x ++ ";;;;") = bADR)
    (hBDAY : ∀ x, startsWithP P ("BDAY:" ++ x) = bBDAY)
    (hURL : ∀ x, startsWithP P ("URL:" ++ escapeValue x) = bURL)
    (hNOTE : ∀ x, startsWithP P ("NOTE:" ++ escapeValue x) = bNOTE) :
    countLinesWith P (buildVCard r)
      = (if r.fullName = "" then 0 else (if bFN = true then 1 else 0))
        + (if r.company = "" then 0 else (if bORG = true then 1 else 0))
        + (if r.jobTitle = "" then 0 else (if bTITLE = true then 1 else 0))
        + (if bTEL = true then r.phones.length else 0)
        + (if r.email = "" then 0 else (if bEMAIL = true then 1 else 0))
        + (if r.address = "" then 0 else (if bADR = true then 1 else 0))
        + (if r.birthday = "" then 0 else (if bBDAY = true then 1 else 0))
        + (if r.website = "" then 0 else (if bURL = true then 1 else 0))
        + (if r.notes = "" then 0 else (if bNOTE = true then 1 else 0)) := by
  unfold countLinesWith
  rw [linesOf_buildVCard r hne hb]
  simp only [bodyLines, List.filter_append, List.length_append]
  have hframe : (List.filter (fun l => startsWithP P l) ["BEGIN:VCARD", "VERSION:3.0"]).length = 0 := by
    simp [List.filter_cons, hBV, hV]
  have hendf : (List.filter (fun l => startsWithP P l) ["END:VCARD"]).length = 0 := by
    simp [List.filter_cons, hE]
  rw [hframe, hendf]
  rw [length_filter_ite _ _ _ _ (hFN r.fullName),
    length_filter_ite _ _ _ _ (hORG r.company),
    length_filter_ite _ _ _ _ (hTITLE r.jobTitle),
    length_filter_map _ _ _ _ hTEL,
    length_filter_ite _ _ _ _ (hEMAIL r.email),
    length_filter_ite _ _ _ _ (hADR r.addressType r.address),
    length_filter_ite _ _ _ _ (hBDAY r.birthday),
    length_filter_ite _ _ _ _ (hURL r.website),
    length_filter_ite _ _ _ _ (hNOTE r.notes)]
  omega

/-- C1 (counterexample): the claim that every field value is escaped before
insertion, including the birthday, fails on the code: with birthday `";"`
the built vCard contains the raw `BDAY:;` line, not the escaped `BDAY:\;`
line the spec-faithful builder produces. -/
theorem escapes_c1_counterexample : buildVCard rBadC1 ≠ buildVCardSpec rBadC1 := by
  decide

/-- C1 (amended): every field value except the birthday is escaped with
`escapeValue` before insertion; the birthday is inserted verbatim, so the
builder agrees with the spec-faithful builder exactly when escaping leaves
the birthday unchanged (no backslash, newline, semicolon or comma in it). -/
theorem escapes_c1_amended (r : BuildVCardArgs)
    (h : escapeValue r.birthday = r.birthday) : buildVCard r = buildVCardSpec r := by
  have hb : bodyLinesSpec r = bodyLines r := by
    unfold bodyLines bodyLinesSpec
    rw [h]
  unfold buildVCard buildVCardSpec
  rw [hb]

theorem escapes_c1_amended_witness :
    escapeValue rWitC1.birthday = rWitC1.birthday ∧ buildVCard rWitC1 = buildVCardSpec rWitC1 :=
  ⟨by decide, escapes_c1_amended rWitC1 (by decide)⟩

/-- C3: the empty record builds the empty string, not a degenerate
`BEGIN`/`END` pair. -/
theorem empty_record_builds_empty_c3 : buildVCard emptyRecord = "" := by decide

/-- C2 (counterexample): the claim that a record with exactly one non-empty
field yields exactly one property line plus the framing fails: a phone list
with two entries is a single non-empty field but contributes two
`TEL;TYPE=CELL` lines. -/
theorem single_field_c2_counterexample :
    fieldCount rBadC2 = 1
      ∧ ¬ ((bodyLines rBadC2).length = 1
        ∧ buildVCard rBadC2
          = "BEGIN:VCARD\nVERSION:3.0\n" ++ joinLines (bodyLines rBadC2) ++ "\nEND:VCARD") := by
  decide

/-- C2 (amended): for a record with exactly one non-empty field whose phone
list has at most one entry, the output is exactly the framing lines
`BEGIN:VCARD`, `VERSION:3.0`, `END:VCARD` around a single property line.
(The spec's contract includes `VERSION:3.0` in the frame.) -/
theorem single_field_c2 (r : BuildVCardArgs) (h1 : fieldCount r = 1)
    (h2 : r.phones.length ≤ 1) :
    (bodyLines r).length = 1
      ∧ buildVCard r
        = "BEGIN:VCARD\nVERSION:3.0\n" ++ joinLines (bodyLines r) ++ "\nEND:VCARD" := by
  have hlen : (bodyLines r).length = 1 := by
    rw [bodyLines_length]
    unfold fieldCount at h1
    cases hph : r.phones with
    | nil =>
      rw [hph] at h1
      simp at h1
      simp [hph, h1]
    | cons p ps =>
      cases ps with
      | nil =>
        rw [hph] at h1
        simp at h1
        simp [hph, h1]
      | cons p2 ps2 =>
        rw [hph] at h2
        simp at h2
  have hne : ¬ allEmpty r := by
    intro hall
    have hnil : bodyLines r = [] := (bodyLines_eq_nil_iff r).mpr hall
    rw [hnil] at hlen
    simp at hlen
  exact ⟨hlen, buildVCard_string_form r hne⟩

theorem single_field_c2_witness :
    (fieldCount rAda = 1 ∧ rAda.phones.length ≤ 1)
      ∧ ((bodyLines rAda).length = 1
        ∧ buildVCard rAda
          = "BEGIN:VCARD\nVERSION:3.0\n" ++ joinLines (bodyLines rAda) ++ "\nEND:VCARD") :=
  ⟨⟨by decide, by decide⟩, single_field_c2 rAda (by decide) (by decide)⟩

/-- C7: whenever at least one field is non-empty, the built vCard begins
with the `BEGIN:VCARD` and `VERSION:3.0` lines and ends with the
`END:VCARD` line, with the property lines in between. -/
theorem framing_c7 (r : BuildVCardArgs) (h : ¬ allEmpty r) :
    buildVCard r = "BEGIN:VCARD\nVERSION:3.0\n" ++ joinLines (bodyLines r) ++ "\nEND:VCARD" :=
  buildVCard_string_form r h

theorem framing_c7_witness :
    buildVCard rWit7 = "BEGIN:VCARD\nVERSION:3.0\n" ++ joinLines (bodyLines rWit7) ++ "\nEND:VCARD" :=
  framing_c7 rWit7 (by decide)

/-- C4 (counterexample): the claim that the output has one line per
non-empty field fails as stated over all records: an empty phone entry
still produces a `TEL;TYPE=CELL:` line, and a newline inside the birthday
(inserted unescaped) splits the `BDAY` line in two. -/
theorem lines_per_field_c4_counterexample :
    ¬ allEmpty rBadC4 ∧ ¬ vcardLineProp rBadC4 := by
  decide

/-- C4 (amended): for a record with at least one non-empty field, whose
birthday contains no newline and whose phone entries are all non-empty, the
output has exactly one line per non-empty field under the property names
`FN`, `ORG`, `TITLE`, `TEL;TYPE=CELL`, `EMAIL;TYPE=INTERNET`, `ADR`,
`BDAY`, `URL`, `NOTE` (each phone entry one field), an empty field
contributes no line, and nothing else appears beyond the three framing
lines. -/
theorem lines_per_field_c4 (r : BuildVCardArgs) (hne : ¬ allEmpty r)
    (hb : nlFree r.birthday) (hp : ∀ p ∈ r.phones, p ≠ "") :
    vcardLineProp r := by
  have hfilter : r.phones.filter (fun p => !p.isEmpty) = r.phones := by
    apply List.filter_eq_self.mpr
    intro p hpmem
    cases hpe : p.isEmpty
    · rfl
    · exact absurd ((String.isEmpty_iff p).mp hpe) (hp p hpmem)
  unfold vcardLineProp
  rw [hfilter]
  refine ⟨?_, ?_, ?_, ?_, ?_, ?_, ?_, ?_, ?_, ?_⟩
  · rw [countLines_body r hne hb "FN:" (by decide) (by decide) (by decide)
      (fun x => startsWithP_append_true _ _ _ (by decide))
      (fun x => startsWithP_append_false _ _ _ (by decide) (by decide))
      (fun x => startsWithP_append_false _ _ _ (by decide) (by decide))
      (fun x => startsWithP_append_false _ _ _ (by decide) (by decide))
      (fun x => startsWithP_append_false _ _ _ (by decide) (by decide))
      (fun t x => startsWithP_adr _ t x _
        (fun y => startsWithP_append_false _ _ _ (by decide) (by decide)))
      (fun x => startsWithP_append_false _ _ _ (by decide) (by decide))
      (fun x => startsWithP_append_false _ _ _ (by decide) (by decide))
      (fun x => startsWithP_append_false _ _ _ (by decide) (by decide))]
    simp
  · rw [countLines_body r hne hb "ORG:" (by decide) (by decide) (by decide)
      (fun x => startsWithP_append_false _ _ _ (by decide) (by decide))
      (fun x => startsWithP_append_true _ _ _ (by decide))
      (fun x => startsWithP_append_false _ _ _ (by decide) (by decide))
      (fun x => startsWithP_append_false _ _ _ (by decide) (by decide))
      (fun x => startsWithP_append_false _ _ _ (by decide) (by decide))
      (fun t x => startsWithP_adr _ t x _
        (fun y => startsWithP_append_false _ _ _ (by decide) (by decide)))
      (fun x => startsWithP_append_false _ _ _ (by decide) (by decide))
      (fun x => startsWithP_append_false _ _ _ (by decide) (by decide))
      (fun x => startsWithP_append_false _ _ _ (by decide) (by decide))]
    simp
  · rw [countLines_body r hne hb "TITLE:" (by decide) (by decide) (by decide)
      (fun x => startsWithP_append_false _ _ _ (by decide) (by decide))
      (fun x => startsWithP_append_false _ _ _ (by decide) (by decide))
      (fun x => startsWithP_append_true _ _ _ (by decide))
      (fun x => startsWithP_append_false _ _ _ (by decide) (by decide))
      (fun x => startsWithP_append_false _ _ _ (by decide) (by decide))
      (fun t x => startsWithP_adr _ t x _
        (fun y => startsWithP_append_false _ _ _ (by decide) (by decide)))
      (fun x => startsWithP_append_false _ _ _ (by decide) (by decide))
      (fun x => startsWithP_append_false _ _ _ (by decide) (by decide))
      (fun x => startsWithP_append_false _ _ _ (by decide) (by decide))]
    simp
  · rw [countLines_body r hne hb "TEL;TYPE=CELL:" (by decide) (by decide) (by decide)
      (fun x => startsWithP_append_false _ _ _ (by decide) (by decide))
      (fun x => startsWithP_append_false _ _ _ (by decide) (by decide))
      (fun x => startsWithP_append_false _ _ _ (by decide) (by decide))
      (fun x => startsWithP_append_true _ _ _ (by decide))
      (fun x => startsWithP_append_false _ _ _ (by decide) (by decide))
      (fun t x => startsWithP_adr _ t x _
        (fun y => startsWithP_append_false _ _ _ (by decide) (by decide)))
      (fun x => startsWithP_append_false _ _ _ (by decide) (by decide))
      (fun x => startsWithP_append_false _ _ _ (by decide) (by decide))
      (fun x => startsWithP_append_false _ _ _ (by decide) (by decide))]
    simp
  · rw [countLines_body r hne hb "EMAIL;TYPE=INTERNET:" (by decide) (by decide) (by decide)
      (fun x => startsWithP_append_false _ _ _ (by decide) (by decide))
      (fun x => startsWithP_append_false _ _ _ (by decide) (by decide))
      (fun x => startsWithP_append_false _ _ _ (by decide) (by decide))
      (fun x => startsWithP_append_false _ _ _ (by decide) (by decide))
      (fun x => startsWithP_append_true _ _ _ (by decide))
      (fun t x => startsWithP_adr _ t x _
        (fun y => startsWithP_append_false _ _ _ (by decide) (by decide)))
      (fun x => startsWithP_append_false _ _ _ (by decide) (by decide))
      (fun x => startsWithP_append_false _ _ _ (by decide) (by decide))
      (fun x => startsWithP_append_false _ _ _ (by decide) (by decide))]
    simp
  · rw [countLines_body r hne hb "ADR" (by decide) (by decide) (by decide)
      (fun x => startsWithP_append_false _ _ _ (by decide) (by decide))
      (fun x => startsWithP_append_false _ _ _ (by decide) (by decide))
      (fun x => startsWithP_append_false _ _ _ (by decide) (by decide))
      (fun x => startsWithP_append_false _ _ _ (by decide) (by decide))
      (fun x => startsWithP_append_false _ _ _ (by decide) (by decide))
      (fun t x => startsWithP_adr _ t x _
        (fun y => startsWithP_append_true _ _ _ (by decide)))
      (fun x => startsWithP_append_false _ _ _ (by decide) (by decide))
      (fun x => startsWithP_append_false _ _ _ (by decide) (by decide))
      (fun x => startsWithP_append_false _ _ _ (by decide) (by decide))]
    simp
  · rw [countLines_body r hne hb "BDAY:" (by decide) (by decide) (by decide)
      (fun x => startsWithP_append_false _ _ _ (by decide) (by decide))
      (fun x => startsWithP_append_false _ _ _ (by decide) (by decide))
      (fun x => startsWithP_append_false _ _ _ (by decide) (by decide))
      (fun x => startsWithP_append_false _ _ _ (by decide) (by decide))
      (fun x => startsWithP_append_false _ _ _ (by decide) (by decide))
      (fun t x => startsWithP_adr _ t x _
        (fun y => startsWithP_append_false _ _ _ (by decide) (by decide)))
      (fun x => startsWithP_append_true _ _ _ (by decide))
      (fun x => startsWithP_append_false _ _ _ (by decide) (by decide))
      (fun x => startsWithP_append_false _ _ _ (by decide) (by decide))]
    simp
  · rw [countLines_body r hne hb "URL:" (by decide) (by decide) (by decide)
      (fun x => startsWithP_append_false _ _ _ (by decide) (by decide))
      (fun x => startsWithP_append_false _ _ _ (by decide) (by decide))
      (fun x => startsWithP_append_false _ _ _ (by decide) (by decide))
      (fun x => startsWithP_append_false _ _ _ (by decide) (by decide))
      (fun x => startsWithP_append_false _ _ _ (by decide) (by decide))
      (fun t x => startsWithP_adr _ t x _
        (fun y => startsWithP_append_false _ _ _ (by decide) (by decide)))
      (fun x => startsWithP_append_false _ _ _ (by decide) (by decide))
      (fun x => startsWithP_append_true _ _ _ (by decide))
      (fun x => startsWithP_append_false _ _ _ (by decide) (by decide))]
    simp
  · rw [countLines_body r hne hb "NOTE:" (by decide) (by decide) (by decide)
      (fun x => startsWithP_append_false _ _ _ (by decide) (by decide))
      (fun x => startsWithP_append_false _ _ _ (by decide) (by decide))
      (fun x => startsWithP_append_false _ _ _ (by decide) (by decide))
      (fun x => startsWithP_append_false _ _ _ (by decide) (by decide))
      (fun x => startsWithP_append_false _ _ _ (by decide) (by decide))
      (fun t x => startsWithP_adr _ t x _
        (fun y => startsWithP_append_false _ _ _ (by decide) (by decide)))
      (fun x => startsWithP_append_false _ _ _ (by decide) (by decide))
      (fun x => startsWithP_append_false _ _ _ (by decide) (by decide))
      (fun x => startsWithP_append_true _ _ _ (by decide))]
    simp
  · rw [linesOf_buildVCard r hne hb]
    simp only [List.length_append, bodyLines_length]
    simp
    omega

theorem lines_per_field_c4_witness : ¬ allEmpty rWitC4 ∧ vcardLineProp rWitC4 :=
  ⟨by decide, lines_per_field_c4 rWitC4 (by decide) (by decide) (by decide)⟩

/-- C5: the phone input is split on newlines, commas or semicolons, entries
are trimmed and empty entries dropped (`parsePhoneNumbers`), and the
builder emits one `TEL;TYPE=CELL` line per resulting entry, in input
order: the sub-list of output lines that start with `TEL;TYPE=CELL:` is
exactly the parsed entries, escaped, in order. -/
theorem phone_tel_lines_c5 : ∀ s : String,
    (linesOf (buildVCard (phonesOnly s))).filter (fun l => startsWithP "TEL;TYPE=CELL:" l)
      = (parsePhoneNumbers s).map (fun p => "TEL;TYPE=CELL:" ++ escapeValue p) := by
  intro s
  by_cases hp : parsePhoneNumbers s = []
  · have h1 : phonesOnly s = emptyRecord := by
      unfold phonesOnly
      rw [hp]
      rfl
    rw [h1, hp]
    decide
  · have hne : ¬ allEmpty (phonesOnly s) := by
      intro hall
      exact hp hall.2.2.1
    have hb : nlFree (phonesOnly s).birthday := by
      show nlFree ""
      decide
    rw [linesOf_buildVCard _ hne hb]
    have hframe : List.filter (fun l => startsWithP "TEL;TYPE=CELL:" l)
        ["BEGIN:VCARD", "VERSION:3.0"] = [] := by decide
    have hendf : List.filter (fun l => startsWithP "TEL;TYPE=CELL:" l)
        ["END:VCARD"] = [] := by decide
    have hmap := filter_map_all (fun n => "TEL;TYPE=CELL:" ++ escapeValue n)
      (fun l => startsWithP "TEL;TYPE=CELL:" l) (parsePhoneNumbers s)
      (fun x => startsWithP_append_true _ _ _ (by decide))
    simp only [bodyLines, phonesOnly, emptyRecord, List.filter_append]
    simp [hframe, hendf, hmap]

/-- C6: the vCard escaping is losslessly reversible: the decoder
`unescapeValue` recovers every input from its escaped form, and hence
`escapeValue` is injective. -/
theorem escape_lossless_c6 :
    (∀ s : String, unescapeValue (escapeValue s) = s)
      ∧ (∀ a b : String, escapeValue a = escapeValue b → a = b) := by
  refine ⟨unescape_escape, ?_⟩
  intro a b h
  have ha := unescape_escape a
  have hb := unescape_escape b
  rw [← ha, ← hb, h]

theorem escape_lossless_c6_witness :
    unescapeValue (escapeValue "a,b;c\\d\ne") = "a,b;c\\d\ne" ∧ ("x" : String) = "x" :=
  ⟨escape_lossless_c6.1 _, escape_lossless_c6.2 "x" "x" rfl⟩

/-- C8: QR generation is rejected exactly when every field is blank: the
older variant's `generateQR` produces no QR value precisely for all-empty
input, and the current page's `hasContactInfo` (which gates the QR preview
and the copy/download actions) is false precisely for the all-empty
record. -/
theorem empty_guard_c8 :
    (∀ n p a b : String,
      generateQR n p a b = none ↔ (n = "" ∧ p = "" ∧ a = "" ∧ b = ""))
      ∧ (∀ r : BuildVCardArgs, hasContactInfo r = false ↔ allEmpty r) := by
  constructor
  · intro n p a b
    by_cases h : n = "" ∧ p = "" ∧ a = "" ∧ b = ""
    · simp [generateQR, h]
    · simp [generateQR, h]
  · intro r
    constructor
    · intro h
      unfold hasContactInfo at h
      have hxe : (buildVCard r).isEmpty = true := by
        cases hx : (buildVCard r).isEmpty
        · rw [hx] at h
          simp at h
        · rfl
      exact (buildVCard_eq_empty_iff r).mp ((String.isEmpty_iff _).mp hxe)
    · intro h
      unfold hasContactInfo
      have hv : buildVCard r = "" := (buildVCard_eq_empty_iff r).mpr h
      rw [hv]
      rfl

theorem empty_guard_c8_witness :
    generateQR "" "" "" "" = none ∧ hasContactInfo emptyRecord = false :=
  ⟨(empty_guard_c8.1 "" "" "" "").mpr ⟨rfl, rfl, rfl, rfl⟩,
    (empty_guard_c8.2 emptyRecord).mpr (by decide)⟩

/-- C9: the builder returns the empty string exactly when every string
field is empty and the phone list is empty; consequently a record whose
only content is a phone input made of separators and whitespace (which
parses to no phone numbers) also builds the empty string. -/
theorem empty_sentinel_c9 :
    (∀ r : BuildVCardArgs, buildVCard r = "" ↔ allEmpty r)
      ∧ (∀ s : String, (∀ c ∈ s.data, isSep c = true ∨ c.isWhitespace = true) →
        buildVCard (phonesOnly s) = "") := by
  refine ⟨buildVCard_eq_empty_iff, ?_⟩
  intro s h
  apply (buildVCard_eq_empty_iff _).mpr
  unfold phonesOnly emptyRecord allEmpty
  exact ⟨rfl, rfl, parsePhoneNumbers_sep_ws s h, rfl, rfl, rfl, rfl, rfl, rfl⟩

theorem empty_sentinel_c9_witness :
    buildVCard (phonesOnly " ;,\n ") = "" ∧ (buildVCard rAda = "" ↔ allEmpty rAda) :=
  ⟨empty_sentinel_c9.2 " ;,\n " (by decide), empty_sentinel_c9.1 rAda⟩

/-- C10: every entry produced by `parsePhoneNumbers` is non-empty, contains
no newline, comma or semicolon, and carries no leading or trailing
whitespace. -/
theorem parse_entries_c10 : ∀ (s : String), ∀ p ∈ parsePhoneNumbers s,
    p ≠ "" ∧ (∀ c ∈ p.data, c ≠ '\n' ∧ c ≠ ',' ∧ c ≠ ';')
      ∧ (∀ c, p.data.head? = some c → c.isWhitespace = false)
      ∧ (∀ c, p.data.getLast? = some c → c.isWhitespace = false) := by
  intro s p hp
  obtain ⟨t, ht, hdata, hne⟩ := mem_parsePhoneNumbers s p hp
  refine ⟨?_, ?_, ?_, ?_⟩
  · intro hempty
    rw [hempty] at hdata
    exact hne hdata.symm
  · intro c hc
    rw [hdata] at hc
    have hmem := mem_trimList t c hc
    have h2 := splitRuns_tokens s.data t ht c hmem
    have hsep := h2.1
    simp [isSep] at hsep
    exact ⟨hsep.1.1, hsep.1.2, hsep.2⟩
  · intro c hc
    rw [hdata] at hc
    exact trimList_head t c hc
  · intro c hc
    rw [hdata] at hc
    exact trimList_last t c hc

theorem parse_entries_c10_witness :
    (("1" : String) ∈ parsePhoneNumbers " 1, 2 ")
      ∧ (("1" : String) ≠ ""
        ∧ (∀ c ∈ ("1" : String).data, c ≠ '\n' ∧ c ≠ ',' ∧ c ≠ ';')
        ∧ (∀ c, ("1" : String).data.head? = some c → c.isWhitespace = false)
        ∧ (∀ c, ("1" : String).data.getLast? = some c → c.isWhitespace = false)) :=
  ⟨by decide, parse_entries_c10 " 1, 2 " "1" (by decide)⟩

end QRGen
